import Mathlib

/-!
Verification development for the journey data updater
(source file: update_journey_data.py).

The script fetches direct and one-change rail journeys from the TFL
journey planner, stitches first legs (origin to interchange) with second
legs (interchange to destination) subject to a minimum transfer time,
merges them with direct services, sorts by first leg departure clock
time, numbers the results, truncates to NUM_JOURNEYS and writes a file
when at least one journey was produced.

The embedding below mirrors the Python source.  Python datetime values
are modelled as epoch seconds (Int); datetime.fromisoformat is modelled
by fromisoformat, which parses the subset of ISO strings the script
receives, YYYY-MM-DDTHH:MM with optional seconds; strftime with format
HH:MM is modelled by toHHMM, and datetime.strptime with format HH:MM by
strptimeHM, returning minutes after midnight.  A Python exception
escaping a function is modelled by the function returning none.  Python
sorted with a key function is modelled by a parse guard on every key
followed by a stable insertion sort on the order induced by the key;
Python sorted is also stable, and two stable sorts agree on any list,
so the two coincide whenever every key computation succeeds, which the
guard enforces exactly as the Python key computation would raise
otherwise.
-/

/-! ## Configuration constants (module level in the source) -/

def ORIGIN : String := "Streatham Common Rail Station"

def DESTINATION : String := "Imperial Wharf Rail Station"

def INTERCHANGE_STATION : String := "Clapham Junction Rail Station"

def NUM_JOURNEYS : Nat := 8

def MIN_TRANSFER_TIME_MINUTES : Int := 1

/-! ## Time model -/

/-- One digit of a decimal number, as in int parsing of a char. -/
def digitVal (c : Char) : Option Nat :=
  if c.isDigit then some (c.toNat - 48) else none

/-- Parse exactly two decimal digits, returning the value and the rest. -/
def parse2 : List Char → Option (Nat × List Char)
  | c1 :: c2 :: rest =>
    match digitVal c1, digitVal c2 with
    | some a, some b => some (a * 10 + b, rest)
    | _, _ => none
  | _ => none

/-- Consume one expected character. -/
def expectChar (ch : Char) : List Char → Option (List Char)
  | c :: rest => if c = ch then some rest else none
  | [] => none

/-- Day number of a civil date (Gregorian), days since 1970-01-01.
Standard days-from-civil computation, adequate for every four digit
year the script can meet. -/
def daysFromCivil (y m d : Nat) : Int :=
  let yAdj : Nat := if m ≤ 2 then y - 1 else y
  let era : Nat := yAdj / 400
  let yoe : Nat := yAdj - era * 400
  let mp : Nat := if m > 2 then m - 3 else m + 9
  let doy : Nat := (153 * mp + 2) / 5 + d - 1
  let doe : Nat := yoe * 365 + yoe / 4 - yoe / 100 + doy
  (era * 146097 + doe : Int) - 719468

/-- Model of datetime.fromisoformat followed by use as an absolute
instant: parses YYYY-MM-DDTHH:MM or YYYY-MM-DDTHH:MM:SS and returns
epoch seconds.  Returns none exactly where the Python call raises. -/
def fromisoformat (s : String) : Option Int :=
  match parse2 s.toList with
  | none => none
  | some (y1, cs) =>
  match parse2 cs with
  | none => none
  | some (y2, cs) =>
  match expectChar '-' cs with
  | none => none
  | some cs =>
  match parse2 cs with
  | none => none
  | some (m, cs) =>
  match expectChar '-' cs with
  | none => none
  | some cs =>
  match parse2 cs with
  | none => none
  | some (d, cs) =>
  match expectChar 'T' cs with
  | none => none
  | some cs =>
  match parse2 cs with
  | none => none
  | some (hh, cs) =>
  match expectChar ':' cs with
  | none => none
  | some cs =>
  match parse2 cs with
  | none => none
  | some (mi, cs) =>
  let secPart : Option (Nat × List Char) :=
    match cs with
    | [] => some (0, [])
    | _ =>
      match expectChar ':' cs with
      | none => none
      | some cs2 => parse2 cs2
  match secPart with
  | none => none
  | some (ss, rest) =>
    if 1 ≤ m ∧ m ≤ 12 ∧ 1 ≤ d ∧ d ≤ 31 ∧ hh ≤ 23 ∧ mi ≤ 59 ∧ ss ≤ 59 ∧ rest = [] then
      some (daysFromCivil (y1 * 100 + y2) m d * 86400 + (hh * 3600 + mi * 60 + ss : Nat))
    else none

/-- Two digit zero padded decimal rendering, as strftime produces. -/
def pad2 (n : Nat) : String :=
  if n < 10 then "0" ++ toString n else toString n

/-- Model of strftime applied with format HH:MM to a datetime given as
epoch seconds. -/
def toHHMM (secs : Int) : String :=
  let md : Nat := (secs % 86400).toNat / 60
  pad2 (md / 60) ++ ":" ++ pad2 (md % 60)

/-- One or two digit field of strptime: two digits are taken when they
form a value inside the field bound, otherwise one digit, exactly like
the regular expressions strptime builds for the H and M directives. -/
def strpField (bound : Nat) : List Char → Option (Nat × List Char)
  | c1 :: c2 :: rest =>
    match digitVal c1, digitVal c2 with
    | some a, some b =>
      if a * 10 + b ≤ bound then some (a * 10 + b, rest) else some (a, c2 :: rest)
    | some a, none => some (a, c2 :: rest)
    | none, _ => none
  | [c1] =>
    match digitVal c1 with
    | some a => some (a, [])
    | none => none
  | [] => none

/-- Model of datetime.strptime with format HH:MM, reduced to the
minutes after midnight of the resulting datetime (its date part is the
constant 1900-01-01, so comparisons and differences of two such values
depend only on these minutes).  Returns none exactly where the Python
call raises. -/
def strptimeHM (s : String) : Option Nat :=
  match strpField 23 s.toList with
  | none => none
  | some (h, cs) =>
  match expectChar ':' cs with
  | none => none
  | some cs =>
  match strpField 59 cs with
  | none => none
  | some (m, cs) =>
    if cs = [] then some (h * 60 + m) else none

/-- The duration in minutes the script computes between two clock times
read with strptime: one day is added to the arrival when it compares
before the departure, then the difference is taken (lines 204-213). -/
def rolloverMinutes (dep arr : Int) : Int :=
  if arr < dep then arr + 1440 - dep else arr - dep

/-! ## Raw provider records -/

/-- One leg object of a TFL journey result, with the fields the script
reads.  Keys a JSON object may lack are Option valued; the nested
accesses mode.id, operator.id and line.id are flattened to one field
each, none when any level is missing. -/
structure RawLeg where
  departureTime : String
  arrivalTime : String
  scheduledDepartureTime : Option String := none
  modeId : Option String := none
  departurePointName : String := ""
  arrivalPointName : String := ""
  platform : Option String := none
  operatorId : Option String := none
  lineId : Option String := none
  status : Option String := none
deriving DecidableEq, Inhabited, Repr

/-- One journey object of a TFL journey result: its duration field
(when present as an integer) and its list of legs. -/
structure RawJourney where
  duration : Option Int := none
  legs : List RawLeg := []
deriving DecidableEq, Inhabited, Repr

/-! ## Output records -/

/-- The second leg dictionary built for a connection (lines 177-186).
The dynamic key departurePlatform_X is modelled by its value; the
rawDepartureTime key is popped before output, modelled by none. -/
structure SecondLegData where
  origin : String
  destination : String
  departure : String
  arrival : String
  departurePlatform : String
  operator : String
  status : String
  rawDepartureTime : Option String := none
deriving DecidableEq, Inhabited, Repr

/-- A connection dictionary (lines 189-192). -/
structure Connection where
  transferTime : String
  second_leg : SecondLegData
deriving DecidableEq, Inhabited, Repr

/-- The first leg dictionary (lines 143-153 and 263-272).  Direct
journeys never carry the rawArrivalTime key and stitched journeys have
it popped before output; both are modelled by none. -/
structure FirstLegData where
  origin : String
  destination : String
  departure : String
  scheduled_departure : String
  arrival : String
  departurePlatform : String
  operator : String
  status : String
  rawArrivalTime : Option String := none
deriving DecidableEq, Inhabited, Repr

/-- A journey segment as assembled for output, covering both the
Direct shape (lines 255-274) and the One Change shape (lines 155-159
plus the fields added in lines 201-224).  Keys only one shape carries,
or added later in main, are Option valued. -/
structure Segment where
  type : String
  first_leg : FirstLegData
  connections : List Connection
  totalDuration : Option String := none
  arrivalTime : Option String := none
  departureTime : Option String := none
  status : Option String := none
  unique_id : Option (String × String) := none
  segment_id : Option Nat := none
  live_updated_at : Option String := none
deriving DecidableEq, Inhabited, Repr

/-! ## Shared helpers of the embedding -/

/-- Sequencing of a fallible computation over a list: Python loops whose
body may raise are modelled with this; none models the exception. -/
def mapOpt (f : α → Option β) : List α → Option (List β)
  | [] => some []
  | x :: xs =>
    match f x with
    | none => none
    | some y =>
      match mapOpt f xs with
      | none => none
      | some ys => some (y :: ys)

/-- Model of leg.get with key status and default On Time. -/
def legStatus (leg : RawLeg) : String :=
  leg.status.getD "On Time"

/-! ## extract_valid_train_legs (lines 82-105) -/

/-- The loop over the legs of one journey: the first leg whose mode id
is overground or national-rail is considered, and the break statement
ends the scan whether or not its arrival point matched. -/
def firstTrainLeg : List RawLeg → Option RawLeg
  | [] => none
  | l :: rest =>
    if l.modeId = some "overground" ∨ l.modeId = some "national-rail" then some l
    else firstTrainLeg rest

/-- The deduplication key of a leg (line 101). -/
def legKey (l : RawLeg) : String × String × Option String :=
  (l.departureTime, l.arrivalTime, l.lineId)

/-- Keys in order of first occurrence, as a Python dict lays them out. -/
def firstOccKeys (ls : List RawLeg) : List (String × String × Option String) :=
  ls.foldl (fun acc l => if legKey l ∈ acc then acc else acc ++ [legKey l]) []

/-- The value a dict comprehension stores under a key: the last element
of the list with that key. -/
def lastWithKey (ls : List RawLeg) (k : String × String × Option String) : Option RawLeg :=
  (ls.filter (fun l => decide (legKey l = k))).getLast?

/-- Model of the dict comprehension of lines 100-103: one leg per key,
keys in first occurrence order, the last leg with the key winning. -/
def dedupLegs (ls : List RawLeg) : List RawLeg :=
  (firstOccKeys ls).filterMap (lastWithKey ls)

/-- extract_valid_train_legs: keeps, per journey, the first train mode
leg provided its arrival point is the expected destination, then
deduplicates on (departureTime, arrivalTime, line id). -/
def extract_valid_train_legs (journeys : List RawJourney) (expected : String) : List RawLeg :=
  let valid := journeys.filterMap (fun j =>
    match firstTrainLeg j.legs with
    | none => none
    | some l => if l.arrivalPointName = expected then some l else none)
  dedupLegs valid

/-! ## group_connections_by_first_leg (lines 107-233) -/

/-- The sort key of line 115 after the parse guard has run: parsed
departure instant of a leg. -/
def isoDepKey (l : RawLeg) : Int :=
  (fromisoformat l.departureTime).getD 0

/-- Model of sorted(first_legs, key=fromisoformat departureTime):
every key is computed (none propagates the exception sorted would
raise), then a stable merge sort on the induced comparator. -/
def sortLegsByDeparture (legs : List RawLeg) : Option (List RawLeg) :=
  match mapOpt (fun l => fromisoformat l.departureTime) legs with
  | none => none
  | some _ => some (legs.insertionSort (fun a b => isoDepKey a ≤ isoDepKey b))

/-- The second leg dictionary of lines 177-186, from the leg and its
parsed departure and arrival instants. -/
def mkSecondLegData (leg2 : RawLeg) (dep2 arr2 : Int) : SecondLegData :=
  { origin := leg2.departurePointName
    destination := leg2.arrivalPointName
    departure := toHHMM dep2
    arrival := toHHMM arr2
    departurePlatform := leg2.platform.getD "TBC"
    operator := leg2.operatorId.getD "N/A"
    status := legStatus leg2
    rawDepartureTime := some leg2.departureTime }

/-- The inner loop of lines 162-192 for one first leg: every second leg
whose transfer, in truncated minutes of the raw instant difference, is
at least MIN_TRANSFER_TIME_MINUTES contributes a connection, in input
order.  Parse failures propagate as none. -/
def connectionsFor (leg1 : RawLeg) : List RawLeg → Option (List Connection)
  | [] => some []
  | leg2 :: rest =>
    match fromisoformat leg1.arrivalTime with
    | none => none
    | some arr1 =>
    match fromisoformat leg2.departureTime with
    | none => none
    | some dep2 =>
    let tm : Int := Int.tdiv (dep2 - arr1) 60
    if MIN_TRANSFER_TIME_MINUTES ≤ tm then
      match fromisoformat leg2.arrivalTime with
      | none => none
      | some arr2 =>
      match connectionsFor leg1 rest with
      | none => none
      | some more =>
        some ({ transferTime := toString tm ++ " min"
                second_leg := mkSecondLegData leg2 dep2 arr2 } :: more)
    else connectionsFor leg1 rest

/-- The first leg dictionary of lines 143-153. -/
def firstLegDataOf (leg1 : RawLeg) : Option FirstLegData :=
  match fromisoformat leg1.departureTime with
  | none => none
  | some dep1 =>
  match fromisoformat leg1.arrivalTime with
  | none => none
  | some arr1 =>
  let sched : Option String :=
    match leg1.scheduledDepartureTime with
    | some s => if s ≠ "" then (fromisoformat s).map toHHMM else some (toHHMM dep1)
    | none => some (toHHMM dep1)
  match sched with
  | none => none
  | some schedStr =>
    some { origin := leg1.departurePointName
           destination := leg1.arrivalPointName
           departure := toHHMM dep1
           scheduled_departure := schedStr
           arrival := toHHMM arr1
           departurePlatform := leg1.platform.getD "TBC"
           operator := leg1.operatorId.getD "N/A"
           status := legStatus leg1
           rawArrivalTime := some leg1.arrivalTime }

/-- One entry of the grouping dict: key (departureTime, arrivalTime) of
the first leg, first leg data and accumulated connections. -/
abbrev GroupEntry : Type :=
  (String × String) × (FirstLegData × List Connection)

/-- Whether the grouping dict already holds a key. -/
def hasKey (key : String × String) (acc : List GroupEntry) : Bool :=
  acc.any (fun e => decide (e.1 = key))

/-- Appending freshly found connections to the entry with a key, the
dict update of line 189. -/
def updateConns (key : String × String) (conns : List Connection) :
    List GroupEntry → List GroupEntry
  | [] => []
  | e :: rest =>
    if e.1 = key then (e.1, (e.2.1, e.2.2 ++ conns)) :: rest
    else e :: updateConns key conns rest

/-- The outer loop of lines 124-192 over the sorted first legs,
threading the grouping dict (insertion ordered, as a Python dict). -/
def groupLegs (sl : List RawLeg) : List RawLeg → List GroupEntry → Option (List GroupEntry)
  | [], acc => some acc
  | leg1 :: rest, acc =>
    let key := (leg1.departureTime, leg1.arrivalTime)
    if hasKey key acc then
      match connectionsFor leg1 sl with
      | none => none
      | some conns => groupLegs sl rest (updateConns key conns acc)
    else
      match firstLegDataOf leg1 with
      | none => none
      | some fld =>
      match connectionsFor leg1 sl with
      | none => none
      | some conns => groupLegs sl rest (acc ++ [(key, (fld, conns))])

/-- The sort key of line 202 after the parse guard has run. -/
def connSortKey (c : Connection) : Nat :=
  (strptimeHM c.second_leg.departure).getD 0

/-- The pop of rawDepartureTime on a connection (line 224). -/
def popConn (c : Connection) : Connection :=
  { c with second_leg := { c.second_leg with rawDepartureTime := none } }

/-- The final processing of one segment with connections (lines
201-226): connections sorted by second leg departure clock time, total
duration from the first leg departure to the arrival of the first
sorted connection with midnight rollover, arrival and departure fields,
raw keys popped and the unique id attached. -/
def finalizeSegment (e : GroupEntry) : Option Segment :=
  let fld := e.2.1
  match mapOpt (fun c => strptimeHM c.second_leg.departure) e.2.2 with
  | none => none
  | some _ =>
  let sortedConns := e.2.2.insertionSort (fun a b => connSortKey a ≤ connSortKey b)
  match strptimeHM fld.departure with
  | none => none
  | some dm =>
  match sortedConns with
  | [] => none
  | c0 :: _ =>
  match strptimeHM c0.second_leg.arrival with
  | none => none
  | some am =>
    some { type := "One Change"
           first_leg := { fld with rawArrivalTime := none }
           connections := sortedConns.map popConn
           totalDuration := some (toString (rolloverMinutes dm am) ++ " min")
           arrivalTime := some c0.second_leg.arrival
           departureTime := some fld.departure
           unique_id := some (fld.departure, fld.operator) }

/-- group_connections_by_first_leg: sort the first legs, parse every
second leg departure (the debug display of line 119 does, and an
unparseable one raises there), group, keep entries with at least one
connection, finalize each. -/
def group_connections_by_first_leg (first_legs second_legs : List RawLeg) :
    Option (List Segment) :=
  match sortLegsByDeparture first_legs with
  | none => none
  | some sorted =>
  match mapOpt (fun l => fromisoformat l.departureTime) second_legs with
  | none => none
  | some _ =>
  match groupLegs second_legs sorted [] with
  | none => none
  | some entries =>
    mapOpt finalizeSegment (entries.filter (fun e => !e.2.2.isEmpty))

/-! ## process_direct_journey and get_direct_journeys (lines 235-300) -/

/-- The totalDuration string of a direct journey (line 259): the raw
duration field rendered with a min suffix when it is an integer, the
string N/A when the key is missing. -/
def durationStringOf : Option Int → String
  | some n => toString n ++ " min"
  | none => "N/A"

/-- process_direct_journey: formats one single leg journey. -/
def process_direct_journey (j : RawJourney) (leg : RawLeg) : Option Segment :=
  match fromisoformat leg.departureTime with
  | none => none
  | some dep =>
  match fromisoformat leg.arrivalTime with
  | none => none
  | some arr =>
  let sched : Option String :=
    match leg.scheduledDepartureTime with
    | some s => if s ≠ "" then (fromisoformat s).map toHHMM else some (toHHMM dep)
    | none => some (toHHMM dep)
  match sched with
  | none => none
  | some schedStr =>
    some { type := "Direct"
           departureTime := some (toHHMM dep)
           arrivalTime := some (toHHMM arr)
           totalDuration := some (durationStringOf j.duration)
           status := some (legStatus leg)
           unique_id := some (toHHMM dep, leg.operatorId.getD "N/A")
           first_leg :=
             { origin := leg.departurePointName
               destination := leg.arrivalPointName
               departure := toHHMM dep
               scheduled_departure := schedStr
               arrival := toHHMM arr
               departurePlatform := leg.platform.getD "TBC"
               operator := leg.operatorId.getD "N/A"
               status := legStatus leg }
           connections := [] }

/-- get_direct_journeys over an already fetched journey list: a journey
qualifies when it has exactly one leg, of train mode, arriving at the
configured destination (lines 285-296). -/
def get_direct_journeys : List RawJourney → Option (List Segment)
  | [] => some []
  | j :: rest =>
    match j.legs with
    | [leg] =>
      if (leg.modeId = some "overground" ∨ leg.modeId = some "national-rail")
          ∧ leg.arrivalPointName = DESTINATION then
        match process_direct_journey j leg with
        | none => none
        | some s =>
          match get_direct_journeys rest with
          | none => none
          | some more => some (s :: more)
      else get_direct_journeys rest
    | _ => get_direct_journeys rest

/-! ## get_one_change_journeys (lines 303-361) -/

/-- The filtering loop of lines 327-337: a first leg is dropped when
the pair of its departure clock time and its operator id, the latter
read with no default, equals the unique id of some direct journey,
whose operator component was read with default N/A.  The missing
operator case therefore never matches. -/
def filterFirstLegs (ids : List (String × String)) : List RawLeg → Option (List RawLeg)
  | [] => some []
  | leg :: rest =>
    match fromisoformat leg.departureTime with
    | none => none
    | some dep =>
    match filterFirstLegs ids rest with
    | none => none
    | some more =>
      if ids.any (fun p => decide (p.1 = toHHMM dep) && decide (some p.2 = leg.operatorId))
      then some more
      else some (leg :: more)

/-- get_one_change_journeys over already fetched journey lists for the
two segments: extract first legs, return [] when none, filter out legs
matching a direct journey id, extract second legs, return [] when none,
group and stitch. -/
def get_one_change_journeys (journeysL1 journeysL2 : List RawJourney)
    (direct_journeys : List Segment) : Option (List Segment) :=
  let first_legs := extract_valid_train_legs journeysL1 INTERCHANGE_STATION
  if first_legs.isEmpty then some []
  else
    let ids := direct_journeys.filterMap (fun j => j.unique_id)
    match filterFirstLegs ids first_legs with
    | none => none
    | some filtered =>
      let second_legs := extract_valid_train_legs journeysL2 DESTINATION
      if second_legs.isEmpty then some []
      else group_connections_by_first_leg filtered second_legs

/-! ## main (lines 363-400) -/

/-- The sort key of line 375 after the parse guard has run. -/
def deptKey (s : Segment) : Nat :=
  (strptimeHM s.first_leg.departure).getD 0

/-- Model of sorted(combined_data, key=strptime of the first leg
departure): parse guard then stable merge sort. -/
def sortJourneys (xs : List Segment) : Option (List Segment) :=
  match mapOpt (fun s => strptimeHM s.first_leg.departure) xs with
  | none => none
  | some _ => some (xs.insertionSort (fun a b => deptKey a ≤ deptKey b))

/-- The enumeration loop of lines 381-390: 1-based segment id, the
snapshot time, and the unique_id key popped. -/
def assignMeta (t : String) : Nat → List Segment → List Segment
  | _, [] => []
  | i, s :: rest =>
    { s with segment_id := some (i + 1), live_updated_at := some t, unique_id := none }
      :: assignMeta t (i + 1) rest

/-- The full sorted and numbered list main builds before the slice of
line 393. -/
def mainAllFromCombined (combined : List Segment) (t : String) : Option (List Segment) :=
  match sortJourneys combined with
  | none => none
  | some sorted => some (assignMeta t 0 sorted)

/-- The final output list of main from the combined data: sorted,
numbered and truncated to NUM_JOURNEYS. -/
def mainFromCombined (combined : List Segment) (t : String) : Option (List Segment) :=
  (mainAllFromCombined combined t).map (fun l => l.take NUM_JOURNEYS)

/-- main up to the slice, over already fetched journey lists: direct
journeys, stitched journeys filtered against them, combined and
processed.  The snapshot time is the current_time string of line 379. -/
def runMainAll (journeysD journeysL1 journeysL2 : List RawJourney) (t : String) :
    Option (List Segment) :=
  match get_direct_journeys journeysD with
  | none => none
  | some direct =>
  match get_one_change_journeys journeysL1 journeysL2 direct with
  | none => none
  | some stitched => mainAllFromCombined (direct ++ stitched) t

/-- The final output list of main over already fetched journey lists. -/
def runMain (journeysD journeysL1 journeysL2 : List RawJourney) (t : String) :
    Option (List Segment) :=
  (runMainAll journeysD journeysL1 journeysL2 t).map (fun l => l.take NUM_JOURNEYS)

/-- Whether main reaches the write of lines 395-397: a crash (none)
writes nothing and an empty final list takes the else branch that
leaves the output file untouched. -/
def writesOf : Option (List Segment) → Bool
  | some out => !out.isEmpty
  | none => false

/-! ## Credentials and request parameters (lines 7-9 and 54-72) -/

/-- The params dict of get_segment_journeys: the four fixed entries,
then time and date when a departure time is forced, then app_id and
app_key exactly when both credential strings are nonempty (the Python
truthiness test of line 70). -/
def segmentParams (appId appKey : String) (timeParam : Option (String × String)) :
    List (String × String) :=
  let base := [("mode", "overground,national-rail"), ("timeIs", "Departing"),
    ("journeyPreference", "LeastTime"), ("alternativeRoute", "true")]
  let withTime := base ++ (match timeParam with
    | some (t, d) => [("time", t), ("date", d)]
    | none => [])
  withTime ++ (if appId ≠ "" ∧ appKey ≠ "" then [("app_id", appId), ("app_key", appKey)] else [])

/-- get_segment_journeys given a fetch collaborator: the request is
always issued with the assembled params; a raised error is caught and
yields the empty list (lines 75-80). -/
def fetchJourneys (fetch : List (String × String) → Option (List RawJourney))
    (params : List (String × String)) : List RawJourney :=
  match fetch params with
  | some js => js
  | none => []

/-- main including the three fetches, parametrised by the credential
strings and by a pure fetch collaborator per call site: directly shows
where the credentials enter (only the request params) and that every
fetch is issued whether or not credentials are present. -/
def runMainWithCreds (appId appKey : String)
    (fetchD fetch1 fetch2 : List (String × String) → Option (List RawJourney))
    (l2time : String × String) (t : String) : Option (List Segment) :=
  runMain (fetchJourneys fetchD (segmentParams appId appKey none))
          (fetchJourneys fetch1 (segmentParams appId appKey none))
          (fetchJourneys fetch2 (segmentParams appId appKey (some l2time))) t

/-! ## Helper lemmas -/

theorem mapOpt_mem {f : α → Option β} : ∀ {xs : List α} {ys : List β},
    mapOpt f xs = some ys → ∀ y ∈ ys, ∃ x ∈ xs, f x = some y := by
  intro xs
  induction xs with
  | nil =>
    intro ys h y hy
    simp [mapOpt] at h
    subst h
    simp at hy
  | cons x rest ih =>
    intro ys h y hy
    rw [mapOpt] at h
    split at h
    · simp at h
    · rename_i y0 hy0
      split at h
      · simp at h
      · rename_i ys0 hys0
        cases h
        rcases List.mem_cons.mp hy with h1 | h1
        · exact ⟨x, List.mem_cons_self x rest, h1 ▸ hy0⟩
        · obtain ⟨x1, hx1, hfx1⟩ := ih hys0 y h1
          exact ⟨x1, List.mem_cons_of_mem x hx1, hfx1⟩

/-- The property every connection the inner loop emits satisfies: its
transferTime string renders an integer number of minutes at least the
configured minimum. -/
def transferOk (c : Connection) : Prop :=
  ∃ n : Int, MIN_TRANSFER_TIME_MINUTES ≤ n ∧ c.transferTime = toString n ++ " min"

/-- The raw transfer the inner loop computes for a pair of legs, in
truncated minutes of the instant difference, with zero substituted for
a parse failure (the loop only reaches the comparison when both parses
succeed, in which case the substitution is vacuous). -/
def rawTransfer (leg1 leg2 : RawLeg) : Int :=
  Int.tdiv ((fromisoformat leg2.departureTime).getD 0 - (fromisoformat leg1.arrivalTime).getD 0) 60

theorem connectionsFor_transferOk {leg1 : RawLeg} : ∀ {ls : List RawLeg}
    {cs : List Connection}, connectionsFor leg1 ls = some cs → ∀ c ∈ cs, transferOk c := by
  intro ls
  induction ls with
  | nil =>
    intro cs h c hc
    simp [connectionsFor] at h
    subst h
    simp at hc
  | cons leg2 rest ih =>
    intro cs h c hc
    rw [connectionsFor] at h
    split at h
    · simp at h
    · rename_i arr1 harr1
      split at h
      · simp at h
      · rename_i dep2 hdep2
        split at h
        · rename_i harr2
          dsimp only at h
          split at h
          · simp at h
          · exact ih h c hc
        · rename_i arr2 harr2
          dsimp only at h
          split at h
          · rename_i hmin
            split at h
            · simp at h
            · rename_i more hmore
              cases h
              rcases List.mem_cons.mp hc with h1 | h1
              · exact ⟨Int.tdiv (dep2 - arr1) 60, hmin, by rw [h1]⟩
              · exact ih hmore c h1
          · exact ih h c hc

theorem connectionsFor_length {leg1 : RawLeg} : ∀ {ls : List RawLeg}
    {cs : List Connection}, connectionsFor leg1 ls = some cs →
    cs.length = ls.countP (fun l2 => decide (MIN_TRANSFER_TIME_MINUTES ≤ rawTransfer leg1 l2)) := by
  intro ls
  induction ls with
  | nil =>
    intro cs h
    simp [connectionsFor] at h
    subst h
    simp
  | cons leg2 rest ih =>
    intro cs h
    rw [connectionsFor] at h
    split at h
    · simp at h
    · rename_i arr1 harr1
      split at h
      · simp at h
      · rename_i dep2 hdep2
        have hkey : rawTransfer leg1 leg2 = Int.tdiv (dep2 - arr1) 60 := by
          unfold rawTransfer
          rw [harr1, hdep2]
          rfl
        split at h
        · rename_i harr2
          dsimp only at h
          split at h
          · simp at h
          · rename_i hmin
            simp [List.countP_cons, hkey, hmin, ih h]
        · rename_i arr2 harr2
          dsimp only at h
          split at h
          · rename_i hmin
            split at h
            · simp at h
            · rename_i more hmore
              cases h
              simp [List.countP_cons, hkey, hmin, ih hmore]
          · rename_i hmin
            simp [List.countP_cons, hkey, hmin, ih h]

theorem updateConns_mem {key : String × String} {conns : List Connection} :
    ∀ {acc : List GroupEntry} {e : GroupEntry}, e ∈ updateConns key conns acc →
    e ∈ acc ∨ ∃ e0 ∈ acc, e = (e0.1, (e0.2.1, e0.2.2 ++ conns)) := by
  intro acc
  induction acc with
  | nil =>
    intro e he
    simp [updateConns] at he
  | cons a rest ih =>
    intro e he
    rw [updateConns] at he
    split at he
    · rcases List.mem_cons.mp he with h1 | h1
      · exact Or.inr ⟨a, List.mem_cons_self a rest, h1⟩
      · exact Or.inl (List.mem_cons_of_mem a h1)
    · rcases List.mem_cons.mp he with h1 | h1
      · exact Or.inl (h1 ▸ List.mem_cons_self a rest)
      · rcases ih h1 with h2 | ⟨e0, he0, he0e⟩
        · exact Or.inl (List.mem_cons_of_mem a h2)
        · exact Or.inr ⟨e0, List.mem_cons_of_mem a he0, he0e⟩

theorem groupLegs_transferOk {sl : List RawLeg} : ∀ {legs : List RawLeg}
    {acc entries : List GroupEntry},
    (∀ e ∈ acc, ∀ c ∈ e.2.2, transferOk c) → groupLegs sl legs acc = some entries →
    ∀ e ∈ entries, ∀ c ∈ e.2.2, transferOk c := by
  intro legs
  induction legs with
  | nil =>
    intro acc entries hacc h
    simp [groupLegs] at h
    exact h ▸ hacc
  | cons leg1 rest ih =>
    intro acc entries hacc h
    rw [groupLegs] at h
    split at h
    · split at h
      · simp at h
      · rename_i conns hconns
        refine ih ?_ h
        intro e he c hc
        rcases updateConns_mem he with h1 | ⟨e0, he0, he0e⟩
        · exact hacc e h1 c hc
        · subst he0e
          rcases List.mem_append.mp hc with h2 | h2
          · exact hacc e0 he0 c h2
          · exact connectionsFor_transferOk hconns c h2
    · split at h
      · simp at h
      · rename_i fld hfld
        split at h
        · simp at h
        · rename_i conns hconns
          refine ih ?_ h
          intro e he c hc
          rcases List.mem_append.mp he with h1 | h1
          · exact hacc e h1 c hc
          · have : e = (((leg1.departureTime, leg1.arrivalTime), (fld, conns)) : GroupEntry) := by
              simpa using h1
            subst this
            exact connectionsFor_transferOk hconns c hc

theorem finalizeSegment_conns {e : GroupEntry} {seg : Segment}
    (h : finalizeSegment e = some seg) :
    ∀ c ∈ seg.connections, ∃ c0 ∈ e.2.2, c = popConn c0 := by
  unfold finalizeSegment at h
  split at h
  · simp at h
  · dsimp only at h
    split at h
    · simp at h
    · rename_i dm hdm
      split at h
      · simp at h
      · rename_i c0 tail hsort
        split at h
        · simp at h
        · rename_i am ham
          cases h
          intro c hc
          simp only [] at hc
          obtain ⟨c1, hc1, hc1e⟩ := List.mem_map.mp hc
          exact ⟨c1, (List.mem_insertionSort _).mp hc1, hc1e.symm⟩

theorem finalizeSegment_spec {e : GroupEntry} {seg : Segment}
    (h : finalizeSegment e = some seg) :
    ∃ c0 rest dm am, seg.connections = popConn c0 :: rest ∧
      strptimeHM seg.first_leg.departure = some dm ∧
      strptimeHM c0.second_leg.arrival = some am ∧
      seg.totalDuration = some (toString (rolloverMinutes dm am) ++ " min") ∧
      seg.arrivalTime = some c0.second_leg.arrival := by
  unfold finalizeSegment at h
  split at h
  · simp at h
  · dsimp only at h
    split at h
    · simp at h
    · rename_i dm hdm
      split at h
      · simp at h
      · rename_i c0 tail hsort
        split at h
        · simp at h
        · rename_i am ham
          cases h
          refine ⟨c0, tail.map popConn, dm, am, ?_, hdm, ham, rfl, rfl⟩
          simp only [hsort, List.map_cons]

theorem group_transferOk {fl sl : List RawLeg} {out : List Segment}
    (h : group_connections_by_first_leg fl sl = some out) :
    ∀ seg ∈ out, ∀ c ∈ seg.connections, transferOk c := by
  unfold group_connections_by_first_leg at h
  split at h
  · simp at h
  · split at h
    · simp at h
    · split at h
      · simp at h
      · rename_i entries hentries
        intro seg hseg c hc
        obtain ⟨e, he, hfe⟩ := mapOpt_mem h seg hseg
        obtain ⟨c0, hc0, hpc⟩ := finalizeSegment_conns hfe c hc
        have hok : transferOk c0 :=
          groupLegs_transferOk (fun e0 he0 => by simp at he0) hentries e
            (List.mem_of_mem_filter he) c0 hc0
        obtain ⟨n, h1, h2⟩ := hok
        exact ⟨n, h1, hpc ▸ h2⟩

theorem group_duration_spec {fl sl : List RawLeg} {out : List Segment}
    (h : group_connections_by_first_leg fl sl = some out) :
    ∀ seg ∈ out, ∃ c0 rest dm am, seg.connections = c0 :: rest ∧
      strptimeHM seg.first_leg.departure = some dm ∧
      strptimeHM c0.second_leg.arrival = some am ∧
      seg.totalDuration = some (toString (rolloverMinutes dm am) ++ " min") ∧
      seg.arrivalTime = some c0.second_leg.arrival := by
  unfold group_connections_by_first_leg at h
  split at h
  · simp at h
  · split at h
    · simp at h
    · split at h
      · simp at h
      · rename_i entries hentries
        intro seg hseg
        obtain ⟨e, he, hfe⟩ := mapOpt_mem h seg hseg
        obtain ⟨c0, rest, dm, am, hconns, hdm, ham, hdur, harr⟩ := finalizeSegment_spec hfe
        exact ⟨popConn c0, rest, dm, am, hconns, hdm, ham, hdur, harr⟩

theorem assignMeta_length (t : String) : ∀ (i : Nat) (xs : List Segment),
    (assignMeta t i xs).length = xs.length := by
  intro i xs
  induction xs generalizing i with
  | nil => rfl
  | cons s rest ih => simp [assignMeta, ih]

theorem assignMeta_segment_id (t : String) : ∀ (xs : List Segment) (i k : Nat)
    (h : k < (assignMeta t i xs).length),
    ((assignMeta t i xs).get ⟨k, h⟩).segment_id = some (i + k + 1) := by
  intro xs
  induction xs with
  | nil => intro i k h; simp [assignMeta] at h
  | cons s rest ih =>
    intro i k h
    cases k with
    | zero => rfl
    | succ k2 =>
      have h2 : k2 < (assignMeta t (i + 1) rest).length := by
        have := h
        simp only [assignMeta, List.length_cons] at this
        omega
      have := ih (i + 1) k2 h2
      rw [show i + (k2 + 1) + 1 = i + 1 + k2 + 1 by omega]
      exact this

theorem assignMeta_mem {t : String} : ∀ {i : Nat} {xs : List Segment} {b : Segment},
    b ∈ assignMeta t i xs → ∃ a ∈ xs, b.first_leg = a.first_leg := by
  intro i xs
  induction xs generalizing i with
  | nil => intro b hb; simp [assignMeta] at hb
  | cons s rest ih =>
    intro b hb
    rw [assignMeta] at hb
    rcases List.mem_cons.mp hb with h1 | h1
    · exact ⟨s, List.mem_cons_self s rest, by rw [h1]⟩
    · obtain ⟨a, ha, hae⟩ := ih h1
      exact ⟨a, List.mem_cons_of_mem s ha, hae⟩

theorem assignMeta_pairwise {t : String} : ∀ {i : Nat} {xs : List Segment},
    List.Pairwise (fun a b => deptKey a ≤ deptKey b) xs →
    List.Pairwise (fun a b => deptKey a ≤ deptKey b) (assignMeta t i xs) := by
  intro i xs
  induction xs generalizing i with
  | nil => intro _; simp [assignMeta]
  | cons s rest ih =>
    intro hp
    rw [assignMeta]
    rcases List.pairwise_cons.mp hp with ⟨hhead, htail⟩
    refine List.pairwise_cons.mpr ⟨?_, ih htail⟩
    intro b hb
    obtain ⟨a, ha, hae⟩ := assignMeta_mem hb
    have hk : deptKey b = deptKey a := by
      unfold deptKey
      rw [hae]
    rw [hk]
    exact hhead a ha

instance : IsTotal Segment (fun a b => deptKey a ≤ deptKey b) :=
  ⟨fun a b => Nat.le_total (deptKey a) (deptKey b)⟩

instance : IsTrans Segment (fun a b => deptKey a ≤ deptKey b) :=
  ⟨fun _ _ _ hab hbc => Nat.le_trans hab hbc⟩

theorem sortJourneys_pairwise {xs l : List Segment} (h : sortJourneys xs = some l) :
    List.Pairwise (fun a b => deptKey a ≤ deptKey b) l := by
  unfold sortJourneys at h
  split at h
  · simp at h
  · cases h
    exact List.sorted_insertionSort (fun a b : Segment => deptKey a ≤ deptKey b) xs

theorem mainAllFromCombined_spec {combined : List Segment} {t : String} {all : List Segment}
    (h : mainAllFromCombined combined t = some all) :
    ∃ sorted, sortJourneys combined = some sorted ∧ all = assignMeta t 0 sorted := by
  unfold mainAllFromCombined at h
  split at h
  · simp at h
  · rename_i sorted hsorted
    cases h
    exact ⟨sorted, hsorted, rfl⟩

theorem runMainAll_spec {jd jl1 jl2 : List RawJourney} {t : String} {all : List Segment}
    (h : runMainAll jd jl1 jl2 t = some all) :
    ∃ direct stitched, get_direct_journeys jd = some direct ∧
      get_one_change_journeys jl1 jl2 direct = some stitched ∧
      mainAllFromCombined (direct ++ stitched) t = some all := by
  unfold runMainAll at h
  split at h
  · simp at h
  · rename_i direct hdirect
    split at h
    · simp at h
    · rename_i stitched hstitched
      exact ⟨direct, stitched, hdirect, hstitched, h⟩

/-! ## Concrete inputs for counterexamples and witnesses -/

/-- A first leg departing 10:00 and reaching the interchange at 10:20. -/
def wLeg1 : RawLeg :=
  { departureTime := "2024-01-01T10:00:00"
    arrivalTime := "2024-01-01T10:20:00"
    modeId := some "overground"
    arrivalPointName := "Clapham Junction Rail Station"
    departurePointName := "Streatham Common Rail Station"
    operatorId := some "SN" }

/-- A second leg departing the interchange at 10:22, arriving 10:40:
transfer of 2 minutes after the 10:20 arrival of wLeg1. -/
def wLeg2a : RawLeg :=
  { departureTime := "2024-01-01T10:22:00"
    arrivalTime := "2024-01-01T10:40:00"
    modeId := some "overground"
    arrivalPointName := "Imperial Wharf Rail Station"
    departurePointName := "Clapham Junction Rail Station"
    operatorId := some "LO" }

/-- A second leg departing the interchange at 10:30, arriving 11:00:
transfer of 10 minutes after the 10:20 arrival of wLeg1, and a later
arrival than wLeg2a. -/
def wLeg2b : RawLeg :=
  { departureTime := "2024-01-01T10:30:00"
    arrivalTime := "2024-01-01T11:00:00"
    modeId := some "overground"
    arrivalPointName := "Imperial Wharf Rail Station"
    departurePointName := "Clapham Junction Rail Station"
    operatorId := some "LO" }

/-- The stitched output on the two-connection example. -/
def wGroupOut : List Segment :=
  (group_connections_by_first_leg [wLeg1] [wLeg2a, wLeg2b]).getD []

/-- A malformed first leg: its arrival instant is one hour before its
departure instant. -/
def wBadLeg : RawLeg :=
  { departureTime := "2024-01-01T10:00:00"
    arrivalTime := "2024-01-01T09:00:00"
    modeId := some "overground" }

/-- A second leg departing five minutes after the raw arrival instant
of wBadLeg. -/
def wBadSecond : RawLeg :=
  { departureTime := "2024-01-01T09:05:00"
    arrivalTime := "2024-01-01T09:30:00"
    modeId := some "overground" }

/-- A direct leg from origin to destination with no operator object in
the raw record. -/
def wDirectLeg : RawLeg :=
  { departureTime := "2024-01-01T10:00:00"
    arrivalTime := "2024-01-01T10:30:00"
    modeId := some "overground"
    arrivalPointName := "Imperial Wharf Rail Station"
    departurePointName := "Streatham Common Rail Station" }

/-- The direct journey record carrying wDirectLeg. -/
def wDirectJourney : RawJourney :=
  { duration := some 30, legs := [wDirectLeg] }

/-- A direct journey whose provider duration field disagrees with the
difference of its leg times (999 against 30 minutes). -/
def wDur999Journey : RawJourney :=
  { duration := some 999, legs := [wDirectLeg] }

/-- A first segment leg with the same 10:00 departure as wDirectLeg and
likewise no operator object, reaching the interchange at 10:20. -/
def wL1Leg : RawLeg :=
  { departureTime := "2024-01-01T10:00:00"
    arrivalTime := "2024-01-01T10:20:00"
    modeId := some "overground"
    arrivalPointName := "Clapham Junction Rail Station"
    departurePointName := "Streatham Common Rail Station" }

/-- The first segment journey record carrying wL1Leg. -/
def wL1Journey : RawJourney :=
  { legs := [wL1Leg] }

/-- A second segment leg departing the interchange at 10:25. -/
def wL2Leg : RawLeg :=
  { departureTime := "2024-01-01T10:25:00"
    arrivalTime := "2024-01-01T10:40:00"
    modeId := some "overground"
    arrivalPointName := "Imperial Wharf Rail Station"
    departurePointName := "Clapham Junction Rail Station" }

/-- The second segment journey record carrying wL2Leg. -/
def wL2Journey : RawJourney :=
  { legs := [wL2Leg] }

/-- The final output of main on the missing-operator example. -/
def wRunOut : List Segment :=
  (runMain [wDirectJourney] [wL1Journey] [wL2Journey] "12:00:00").getD []

/-- A raw service whose live departure value is the status string
Cancel rather than a time, with a scheduled departure present and no
status field. -/
def wCancelLeg : RawLeg :=
  { departureTime := "Cancel"
    arrivalTime := "2024-01-01T10:30:00"
    scheduledDepartureTime := some "2024-01-01T10:00:00"
    modeId := some "overground"
    arrivalPointName := "Imperial Wharf Rail Station" }

/-- The journey record carrying wCancelLeg, shaped as a direct journey. -/
def wCancelJourney : RawJourney :=
  { duration := some 30, legs := [wCancelLeg] }

/-- A first leg for the overnight example: departs 23:58, arrives at
the interchange 00:01 the next day. -/
def wNight1 : RawLeg :=
  { departureTime := "2024-01-01T23:58:00"
    arrivalTime := "2024-01-02T00:01:00"
    modeId := some "overground" }

/-- A second leg for the overnight example: departs 00:02, arrives
00:05, one minute of transfer after wNight1. -/
def wNight2 : RawLeg :=
  { departureTime := "2024-01-02T00:02:00"
    arrivalTime := "2024-01-02T00:05:00"
    modeId := some "overground" }

/-- A fetch collaborator answering every request with the single
direct journey. -/
def wFetchDirect : List (String × String) → Option (List RawJourney) :=
  fun _ => some [wDirectJourney]

/-- A fetch collaborator answering every request with no journeys. -/
def wFetchEmpty : List (String × String) → Option (List RawJourney) :=
  fun _ => some []

/-! ## Claims -/

/-- C1, counterexample: on the first leg wLeg1 (arriving 10:20) and the
second legs wLeg2a (10:22, transfer 2 min) and wLeg2b (10:30, transfer
10 min), the engine attaches BOTH connections to the one journey, not
exactly one connection per first leg as the claim states. -/
theorem C1_counterexample :
    (group_connections_by_first_leg [wLeg1] [wLeg2a, wLeg2b]).map
      (fun out => out.map (fun s => s.connections.length)) = some [2] ∧ (2 : Nat) ≠ 1 := by
  exact ⟨rfl, by decide⟩

/-- C1, amended: every Connection attached to a One-Change journey has
transferMinutes at least MIN_TRANSFER_TIME_MINUTES, and the engine
attaches ALL connections meeting the minimum (the connection count for
a first leg equals the count of second legs whose raw transfer is at
least the minimum), not the single smallest-transfer one. -/
theorem C1_amended :
    (∀ fl sl out, group_connections_by_first_leg fl sl = some out →
      ∀ seg ∈ out, ∀ c ∈ seg.connections,
        ∃ n : Int, MIN_TRANSFER_TIME_MINUTES ≤ n ∧ c.transferTime = toString n ++ " min") ∧
    (∀ leg1 ls cs, connectionsFor leg1 ls = some cs →
      cs.length = ls.countP (fun l2 => decide (MIN_TRANSFER_TIME_MINUTES ≤ rawTransfer leg1 l2))) := by
  constructor
  · intro fl sl out h
    exact group_transferOk h
  · intro leg1 ls cs h
    exact connectionsFor_length h

/-- C1, witness: the amended theorem applied to the two-connection
example, for the first attached connection. -/
theorem C1_witness :
    ∃ n : Int, MIN_TRANSFER_TIME_MINUTES ≤ n ∧
      ((wGroupOut.headD default).connections.headD default).transferTime = toString n ++ " min" :=
  C1_amended.1 [wLeg1] [wLeg2a, wLeg2b] wGroupOut rfl
    (wGroupOut.headD default) (by decide)
    ((wGroupOut.headD default).connections.headD default) (by decide)

/-- C2, counterexample: on the two-connection example the journey keeps
its connections sorted as [arr 10:40, arr 11:00], so the LAST
connection arrives at 11:00, 60 minutes after the 10:00 departure of
the first leg, yet totalDuration is 40 min, the distance to the FIRST
connection; and for a Direct journey totalDuration is the provider
duration field (999 min) rather than the 30 minutes from departure to
arrival of the leg. -/
theorem C2_counterexample :
    ((group_connections_by_first_leg [wLeg1] [wLeg2a, wLeg2b]).map
      (fun out => out.map (fun s => (s.totalDuration, s.connections.map
        (fun c => c.second_leg.arrival)))) =
      some [(some "40 min", ["10:40", "11:00"])]) ∧
    strptimeHM "10:00" = some 600 ∧ strptimeHM "11:00" = some 660 ∧
    rolloverMinutes 600 660 = 60 ∧ (some "40 min" ≠ some (toString (60 : Int) ++ " min")) ∧
    ((process_direct_journey wDur999Journey wDirectLeg).map (fun s => s.totalDuration) =
      some (some "999 min")) ∧
    strptimeHM "10:30" = some 630 ∧ rolloverMinutes 600 630 = 30 ∧
    (some "999 min" ≠ some (toString (30 : Int) ++ " min")) := by
  refine ⟨rfl, rfl, rfl, rfl, by decide, rfl, rfl, rfl, by decide⟩

/-- C2, amended: for every One-Change journey in the stitched output,
totalDuration equals the minutes, with midnight rollover, from the
first leg departure clock time to the arrival of the FIRST connection
in sorted order (the earliest-departing one), which is also the
arrivalTime field of the journey; for Direct journeys totalDuration is
the provider duration field rendered as a string. -/
theorem C2_amended :
    (∀ fl sl out, group_connections_by_first_leg fl sl = some out →
      ∀ seg ∈ out, ∃ c0 rest dm am, seg.connections = c0 :: rest ∧
        strptimeHM seg.first_leg.departure = some dm ∧
        strptimeHM c0.second_leg.arrival = some am ∧
        seg.totalDuration = some (toString (rolloverMinutes dm am) ++ " min") ∧
        seg.arrivalTime = some c0.second_leg.arrival) ∧
    (∀ j leg seg, process_direct_journey j leg = some seg →
      seg.totalDuration = some (durationStringOf j.duration)) := by
  constructor
  · intro fl sl out h
    exact group_duration_spec h
  · intro j leg seg h
    unfold process_direct_journey at h
    split at h
    · simp at h
    · split at h
      · simp at h
      · split at h
        · split at h
          · dsimp only at h
            split at h
            · simp at h
            · cases h
              rfl
          · dsimp only at h
            cases h
            rfl
        · dsimp only at h
          cases h
          rfl

/-- C2, witness: the amended theorem applied to the two-connection
example journey. -/
theorem C2_witness :
    ∃ c0 rest dm am, (wGroupOut.headD default).connections = c0 :: rest ∧
      strptimeHM (wGroupOut.headD default).first_leg.departure = some dm ∧
      strptimeHM c0.second_leg.arrival = some am ∧
      (wGroupOut.headD default).totalDuration =
        some (toString (rolloverMinutes dm am) ++ " min") ∧
      (wGroupOut.headD default).arrivalTime = some c0.second_leg.arrival :=
  C2_amended.1 [wLeg1] [wLeg2a, wLeg2b] wGroupOut rfl (wGroupOut.headD default) (by decide)

/-- C3, counterexample: with both credential strings empty the request
parameter list is still assembled, without credential entries, the
fetches are issued and a run over a fetched direct journey writes its
output, contradicting an abort before any fetch with nothing written. -/
theorem C3_counterexample :
    segmentParams "" "" none = [("mode", "overground,national-rail"),
      ("timeIs", "Departing"), ("journeyPreference", "LeastTime"),
      ("alternativeRoute", "true")] ∧
    writesOf (runMainWithCreds "" "" wFetchDirect wFetchEmpty wFetchEmpty
      ("1130", "20240101") "12:00:00") = true := by
  exact ⟨rfl, rfl⟩

/-- C3, amended: missing credentials never abort the run; when either
credential string is empty the requests are issued with exactly the
same parameter lists as with no credentials at all (the app_id and
app_key entries are omitted) and the whole run produces exactly the
same result. -/
theorem C3_amended : ∀ appId appKey : String, appId = "" ∨ appKey = "" →
    (∀ tp, segmentParams appId appKey tp = segmentParams "" "" tp) ∧
    (∀ fetchD fetch1 fetch2 l2time t,
      runMainWithCreds appId appKey fetchD fetch1 fetch2 l2time t =
        runMainWithCreds "" "" fetchD fetch1 fetch2 l2time t) := by
  intro appId appKey hcred
  have hparams : ∀ tp, segmentParams appId appKey tp = segmentParams "" "" tp := by
    intro tp
    unfold segmentParams
    rcases hcred with h | h <;> simp [h]
  refine ⟨hparams, ?_⟩
  intro fetchD fetch1 fetch2 l2time t
  unfold runMainWithCreds
  rw [hparams none, hparams (some l2time)]

/-- C3, witness: the amended theorem applied to an empty app id with a
nonempty app key. -/
theorem C3_witness :
    segmentParams "" "k" none = segmentParams "" "" none ∧
    runMainWithCreds "" "k" wFetchDirect wFetchEmpty wFetchEmpty
        ("1130", "20240101") "12:00:00" =
      runMainWithCreds "" "" wFetchDirect wFetchEmpty wFetchEmpty
        ("1130", "20240101") "12:00:00" := by
  have h := C3_amended "" "k" (Or.inl rfl)
  exact ⟨h.1 none, h.2 wFetchDirect wFetchEmpty wFetchEmpty ("1130", "20240101") "12:00:00"⟩

/-- C4, counterexample: wBadLeg resolves to an arrival instant one hour
BEFORE its departure instant, yet it is neither discarded nor shifted
by a day: it reaches the matcher unchanged and the output holds its
journey with a 5 minute connection computed from the raw instants
(after a next-day shift the transfer would have been negative and no
connection possible). -/
theorem C4_counterexample :
    (fromisoformat wBadLeg.arrivalTime).isSome = true ∧
    (fromisoformat wBadLeg.departureTime).isSome = true ∧
    (fromisoformat wBadLeg.arrivalTime).getD 0 < (fromisoformat wBadLeg.departureTime).getD 0 ∧
    (group_connections_by_first_leg [wBadLeg] [wBadSecond]).map
      (fun out => out.map (fun s => s.connections.map (fun c => c.transferTime))) =
      some [["5 min"]] := by
  exact ⟨rfl, rfl, by decide, rfl⟩

/-- C4, amended: no validation or correction relates the arrival of a
leg to its departure: the matcher ignores the departure instant of the
first leg entirely, computing connections from its raw arrival instant
alone, so a leg whose arrival precedes its departure is matched exactly
like any other leg. -/
theorem C4_amended : ∀ (leg1 : RawLeg) (s : String) (ls : List RawLeg),
    connectionsFor { leg1 with departureTime := s } ls = connectionsFor leg1 ls := by
  intro leg1 s ls
  induction ls with
  | nil => rfl
  | cons leg2 rest ih =>
    rw [connectionsFor, connectionsFor]
    dsimp only
    rw [ih]

/-- C5, counterexample: on a raw direct service whose live departure
value is the string Cancel (status field absent, scheduled departure
present), the code does not resolve a Cancelled status nor fall back to
the scheduled time: the status helper yields On Time and the direct
journey processing fails (none models the ValueError the datetime
parse raises). -/
theorem C5_counterexample :
    get_direct_journeys [wCancelJourney] = none ∧
    legStatus wCancelLeg = "On Time" ∧ ("On Time" ≠ "Cancelled") := by
  exact ⟨rfl, rfl, by decide⟩

/-- C5, amended: the status of a leg is read only from its status
field with default On Time, never derived from the live departure
value, so it is Cancelled exactly when the raw status field says so;
and a direct service whose live departure does not parse as a time
makes the processing fail (none) instead of falling back to the
scheduled departure. -/
theorem C5_amended :
    (∀ j leg, j.legs = [leg] →
      (leg.modeId = some "overground" ∨ leg.modeId = some "national-rail") →
      leg.arrivalPointName = DESTINATION → fromisoformat leg.departureTime = none →
      get_direct_journeys [j] = none) ∧
    (∀ l : RawLeg, legStatus l = "Cancelled" ↔ l.status = some "Cancelled") := by
  constructor
  · intro j leg hlegs hmode hdest hparse
    unfold get_direct_journeys
    rw [hlegs]
    dsimp only
    rw [if_pos (And.intro hmode hdest)]
    have hp : process_direct_journey j leg = none := by
      unfold process_direct_journey
      rw [hparse]
    rw [hp]
  · intro l
    cases hs : l.status with
    | none =>
      simp only [legStatus, hs, Option.getD_none]
      constructor
      · intro h
        exact absurd h (by decide)
      · intro h
        simp at h
    | some s =>
      simp only [legStatus, hs, Option.getD_some]
      constructor
      · intro h
        rw [h]
      · intro h
        cases h
        rfl

/-- C5, witness: the amended theorem applied to the Cancel service. -/
theorem C5_witness :
    get_direct_journeys [wCancelJourney] = none ∧
    (legStatus wCancelLeg = "Cancelled" ↔ wCancelLeg.status = some "Cancelled") :=
  ⟨C5_amended.1 wCancelJourney wCancelLeg rfl (Or.inl rfl) rfl rfl,
    C5_amended.2 wCancelLeg⟩

/-- C6, code bug witness: the direct service wDirectLeg and the first
leg wL1Leg are the same 10:00 service with no operator object in the
raw record.  The direct identity defaults the operator to N/A (line
251) but the filter of line 331 reads the operator id with no default,
compares None against N/A and keeps the leg, so the final output holds
the identity (10:00, N/A) both as a Direct journey and as the first
leg of a One Change journey, violating the stated invariant the
filtering comments of lines 318-326 promise. -/
theorem C6_code_bug_eval :
    (runMain [wDirectJourney] [wL1Journey] [wL2Journey] "12:00:00").map
      (fun out => out.map (fun s => (s.type, s.first_leg.departure, s.first_leg.operator))) =
      some [("Direct", "10:00", "N/A"), ("One Change", "10:00", "N/A")] := by
  exact rfl

/-- C7: the final output of main is non-decreasing in the effective
first leg departure clock time read back from the formatted departure
field, and the segment id of every entry is its 1-based position, so
segment ids strictly increase along the list. -/
theorem C7_sorted_and_ids : ∀ (jd jl1 jl2 : List RawJourney) (t : String) (out : List Segment),
    runMain jd jl1 jl2 t = some out →
    List.Pairwise (fun a b => deptKey a ≤ deptKey b) out ∧
    ∀ k (hk : k < out.length), (out.get ⟨k, hk⟩).segment_id = some (k + 1) := by
  intro jd jl1 jl2 t out h
  unfold runMain at h
  cases hall : runMainAll jd jl1 jl2 t with
  | none =>
    rw [hall] at h
    simp at h
  | some all =>
    rw [hall] at h
    simp only [Option.map_some'] at h
    cases h
    obtain ⟨direct, stitched, hd, hs, hm⟩ := runMainAll_spec hall
    obtain ⟨sorted, hsort, hall2⟩ := mainAllFromCombined_spec hm
    subst hall2
    constructor
    · exact List.Pairwise.sublist (List.take_sublist _ _)
        (assignMeta_pairwise (sortJourneys_pairwise hsort))
    · intro k hk
      have hk2 : k < (assignMeta t 0 sorted).length := by
        have := List.length_take NUM_JOURNEYS (assignMeta t 0 sorted)
        rw [List.length_take] at hk
        omega
      have hg : ((assignMeta t 0 sorted).take NUM_JOURNEYS).get ⟨k, hk⟩ =
          (assignMeta t 0 sorted).get ⟨k, hk2⟩ := by
        simp [List.get_eq_getElem, List.getElem_take]
      rw [hg]
      have := assignMeta_segment_id t sorted 0 k hk2
      simpa using this

/-- C7, witness: the theorem applied to the concrete two-journey run. -/
theorem C7_witness :
    List.Pairwise (fun a b => deptKey a ≤ deptKey b) wRunOut ∧
    (wRunOut.headD default).segment_id = some 1 := by
  have h := C7_sorted_and_ids [wDirectJourney] [wL1Journey] [wL2Journey] "12:00:00"
    wRunOut rfl
  refine ⟨h.1, ?_⟩
  have h2 := h.2 0 (by decide)
  have he : wRunOut.headD default = wRunOut.get ⟨0, by decide⟩ := rfl
  rw [he]
  exact h2

/-- C8: on a first leg departing 23:58 with its connection arriving
00:05 the next day the computed totalDuration is 7 min, and the clock
rollover duration is never negative on clock values inside one day. -/
theorem C8_overnight :
    ((group_connections_by_first_leg [wNight1] [wNight2]).map
      (fun out => out.map (fun s => s.totalDuration)) = some [some "7 min"]) ∧
    (∀ dep arr : Int, 0 ≤ dep → dep < 1440 → 0 ≤ arr → arr < 1440 →
      0 ≤ rolloverMinutes dep arr) := by
  constructor
  · rfl
  · intro dep arr h1 h2 h3 h4
    unfold rolloverMinutes
    split <;> omega

/-- C8, witness: the rollover bound applied to 23:58 (1438 minutes)
against 00:05 (5 minutes). -/
theorem C8_witness : 0 ≤ rolloverMinutes 1438 5 :=
  C8_overnight.2 1438 5 (by norm_num) (by norm_num) (by norm_num) (by norm_num)

/-- C9: the final output never exceeds NUM_JOURNEYS entries and is the
prefix of the full sorted and numbered list: truncation drops only the
tail, keeping the earliest departures. -/
theorem C9_size_bound : ∀ (jd jl1 jl2 : List RawJourney) (t : String) (out : List Segment),
    runMain jd jl1 jl2 t = some out →
    out.length ≤ NUM_JOURNEYS ∧ ∃ all rest, runMainAll jd jl1 jl2 t = some all ∧
      out = all.take NUM_JOURNEYS ∧ all = out ++ rest := by
  intro jd jl1 jl2 t out h
  unfold runMain at h
  cases hall : runMainAll jd jl1 jl2 t with
  | none =>
    rw [hall] at h
    simp at h
  | some all =>
    rw [hall] at h
    simp only [Option.map_some'] at h
    cases h
    refine ⟨?_, all, all.drop NUM_JOURNEYS, rfl, rfl, (List.take_append_drop _ _).symm⟩
    rw [List.length_take]
    exact min_le_left _ _

/-- C9, witness: the theorem applied to the concrete two-journey run. -/
theorem C9_witness :
    wRunOut.length ≤ NUM_JOURNEYS ∧ ∃ all rest,
      runMainAll [wDirectJourney] [wL1Journey] [wL2Journey] "12:00:00" = some all ∧
      wRunOut = all.take NUM_JOURNEYS ∧ all = wRunOut ++ rest :=
  C9_size_bound [wDirectJourney] [wL1Journey] [wL2Journey] "12:00:00" wRunOut rfl

/-- C10: a run whose combined direct plus stitched list is empty never
reaches the write (the guard of line 395 takes the else branch and the
output file is left untouched), and whenever the write happens the run
produced at least one journey. -/
theorem C10_write_guard :
    (∀ t, writesOf (mainFromCombined [] t) = false) ∧
    (∀ (jd jl1 jl2 : List RawJourney) (t : String),
      writesOf (runMain jd jl1 jl2 t) = true →
      ∃ out, runMain jd jl1 jl2 t = some out ∧ out ≠ []) := by
  constructor
  · intro t
    rfl
  · intro jd jl1 jl2 t h
    cases hr : runMain jd jl1 jl2 t with
    | none =>
      rw [hr] at h
      simp [writesOf] at h
    | some out =>
      rw [hr] at h
      refine ⟨out, rfl, ?_⟩
      simp only [writesOf, Bool.not_eq_true'] at h
      intro he
      subst he
      simp at h

/-- C10, witness: the write guard applied to a run producing one
direct journey. -/
theorem C10_witness :
    ∃ out, runMain [wDirectJourney] [] [] "12:00:00" = some out ∧ out ≠ [] :=
  C10_write_guard.2 [wDirectJourney] [] [] "12:00:00" rfl
